import Mathlib

/-!
# Verified model of `src/hooks/useOrdensServico.ts`

Shallow embedding of the service-order data-access hooks of the repository
(read with vehicle fallback, update with inventory side effects on status
transitions, create, and delete with estimate reset), together with theorems
checking the natural-language specification against the code.

Remote requests are modelled by explicit database state plus an error oracle
saying which request fails; `undefined`/`null` string columns are `Option
String`, and JavaScript truthiness of a string is "present and non-empty".
-/

/-- JavaScript truthiness of a nullable string column: a string is truthy
exactly when it is present and non-empty. -/
def jsTruthy : Option String → Bool
  | none => false
  | some v => v != ""

/-- Row of the `ordem_servico` table (the columns the hooks read or write). -/
structure OrdemServicoRow where
  id : String
  cliente_id : Option String
  veiculo_id : Option String
  orcamento_id : Option String
  status : String
  status_servico : String
  created_at : Nat
deriving DecidableEq, Repr

/-- Row of the `clientes` table. -/
structure Cliente where
  id : String
  nome : String
deriving DecidableEq, Repr

/-- Row of the `veiculos` table. -/
structure Veiculo where
  id : String
  cliente_id : Option String
  placa : String
deriving DecidableEq, Repr

/-- Row of the `orcamentos` table. -/
structure Orcamento where
  id : String
  status : String
deriving DecidableEq, Repr

/-- Row of the `orcamento_pecas` table (the columns the update hook selects:
`quantidade` and `peca_id`, keyed by the owning estimate). -/
structure OrcamentoPeca where
  orcamento_id : String
  peca_id : String
  quantidade : Int
deriving DecidableEq, Repr

/-- Row of the `orcamento_servicos` table. -/
structure OrcamentoServicoRow where
  orcamento_id : String
  servico_id : String
deriving DecidableEq, Repr

/-- The remote database state visible to the hooks.  `estoque` is the parts
inventory (part id to available quantity) behind the inventory-adjustment
service. -/
structure DB where
  ordens : List OrdemServicoRow
  clientes : List Cliente
  veiculos : List Veiculo
  orcamentos : List Orcamento
  orcamento_pecas : List OrcamentoPeca
  orcamento_servicos : List OrcamentoServicoRow
  estoque : List (String × Int)
deriving DecidableEq, Repr

/-- A `{ pecaId, quantidadeUtilizada }` element of the `pecasParaProcessar`
array the update hook passes to the inventory-adjustment mutations. -/
structure PecaProcessar where
  pecaId : String
  quantidadeUtilizada : Int
deriving DecidableEq, Repr

/-- External calls a mutation issues besides its own table writes. -/
inductive Efeito where
  | atualizarEstoque : List PecaProcessar → Efeito
  | devolverEstoque : List PecaProcessar → Efeito
  | updateOrcamento : String → String → Efeito
deriving DecidableEq, Repr

/-! ## Inventory quantities (association list keyed by part id) -/

/-- Current quantity of a part in the inventory (0 if absent). -/
def estoqueDe : List (String × Int) → String → Int
  | [], _ => 0
  | (a, b) :: rest, p => if p = a then b else estoqueDe rest p

/-- Set the quantity of a part in the inventory. -/
def setQty : List (String × Int) → String → Int → List (String × Int)
  | [], p, v => [(p, v)]
  | (a, b) :: rest, p, v => if a = p then (p, v) :: rest else (a, b) :: setQty rest p v

theorem estoqueDe_setQty (e : List (String × Int)) (p : String) (v : Int) (q : String) :
    estoqueDe (setQty e p v) q = if q = p then v else estoqueDe e q := by
  induction e with
  | nil => simp [setQty, estoqueDe]
  | cons hd tl ih =>
    obtain ⟨a, b⟩ := hd
    by_cases hap : a = p
    · subst hap
      by_cases hqa : q = a <;> simp [setQty, estoqueDe, hqa]
    · by_cases hqa : q = a
      · subst hqa
        have hqp : ¬ q = p := hap
        simp [setQty, estoqueDe, hap, hqp]
      · simp [setQty, estoqueDe, hap, hqa, ih]

/-- Modelled from the spec: the inventory-adjustment service (the
`useEstoquePecas` hooks, whose source is not part of this repository snapshot)
adjusts, for each listed part, its available quantity by the listed amount;
`sign = -1` is the "consume quantities for part ids" operation
(`useAtualizarEstoquePecas`) and `sign = 1` the "return quantities for part
ids" operation (`useDevolverEstoquePecas`). -/
def ajusteEstoque (sign : Int) : List (String × Int) → List PecaProcessar → List (String × Int)
  | e, [] => e
  | e, pr :: rest =>
      ajusteEstoque sign (setQty e pr.pecaId (estoqueDe e pr.pecaId + sign * pr.quantidadeUtilizada)) rest

/-- Modelled from the spec: consuming decreases each listed part's inventory
by its listed quantity. -/
def atualizarEstoquePecas (e : List (String × Int)) (pecas : List PecaProcessar) :
    List (String × Int) :=
  ajusteEstoque (-1) e pecas

/-- Modelled from the spec: returning increases each listed part's inventory
by its listed quantity. -/
def devolverEstoquePecas (e : List (String × Int)) (pecas : List PecaProcessar) :
    List (String × Int) :=
  ajusteEstoque 1 e pecas

theorem ajusteEstoque_not_mem (sign : Int) (l : List PecaProcessar) (e : List (String × Int))
    (p : String) (h : p ∉ l.map (fun pr => pr.pecaId)) :
    estoqueDe (ajusteEstoque sign e l) p = estoqueDe e p := by
  induction l generalizing e with
  | nil => rfl
  | cons pr rest ih =>
    simp only [List.map_cons, List.mem_cons, not_or] at h
    obtain ⟨hne, hrest⟩ := h
    rw [ajusteEstoque, ih _ hrest, estoqueDe_setQty, if_neg hne]

theorem ajusteEstoque_nodup_mem (sign : Int) (l : List PecaProcessar) (e : List (String × Int))
    (hnd : (l.map (fun pr => pr.pecaId)).Nodup) (pr : PecaProcessar) (hmem : pr ∈ l) :
    estoqueDe (ajusteEstoque sign e l) pr.pecaId
      = estoqueDe e pr.pecaId + sign * pr.quantidadeUtilizada := by
  induction l generalizing e with
  | nil => cases hmem
  | cons x rest ih =>
    simp only [List.map_cons, List.nodup_cons] at hnd
    obtain ⟨hx, hndrest⟩ := hnd
    rcases List.mem_cons.mp hmem with hpx | hprest
    · subst hpx
      rw [ajusteEstoque, ajusteEstoque_not_mem _ _ _ _ hx, estoqueDe_setQty, if_pos rfl]
    · have hne : pr.pecaId ≠ x.pecaId := by
        intro hcontra
        exact hx (hcontra ▸ List.mem_map_of_mem (fun q => q.pecaId) hprest)
      rw [ajusteEstoque, ih _ hndrest hprest, estoqueDe_setQty, if_neg hne]

/-! ## The read hook `useOrdensServico` -/

/-- The joined shape `OrdemServicoWithDetails` returned by the list query:
the order row with its joined `cliente`, `veiculo`, optional fallback
`cliente_veiculo`, and nested `orcamento` with its parts and services. -/
structure OrcamentoDetalhe where
  orcamento : Orcamento
  orcamento_pecas : List OrcamentoPeca
  orcamento_servicos : List OrcamentoServicoRow
deriving DecidableEq, Repr

structure OSWithDetails where
  os : OrdemServicoRow
  cliente : Option Cliente
  veiculo : Option Veiculo
  cliente_veiculo : Option Veiculo
  orcamento : Option OrcamentoDetalhe
deriving DecidableEq, Repr

/-- The relational join performed by the main `select` of the list query:
`cliente:clientes(*)`, `veiculo:veiculos(*)` and
`orcamento:orcamentos(*, orcamento_pecas(*, ...), orcamento_servicos(*, ...))`. -/
def joinOS (db : DB) (os : OrdemServicoRow) : OSWithDetails :=
  { os := os
    cliente := os.cliente_id.bind fun c => (db.clientes.filter (fun r => r.id == c)).head?
    veiculo := os.veiculo_id.bind fun v => (db.veiculos.filter (fun r => r.id == v)).head?
    cliente_veiculo := none
    orcamento := os.orcamento_id.bind fun oid =>
      ((db.orcamentos.filter (fun r => r.id == oid)).head?).map fun orc =>
        { orcamento := orc
          orcamento_pecas := db.orcamento_pecas.filter (fun r => r.orcamento_id == oid)
          orcamento_servicos := db.orcamento_servicos.filter (fun r => r.orcamento_id == oid) } }

/-- Insert one order into a list already sorted by `created_at` descending
(the `.order("created_at", { ascending: false })` of the main query). -/
def insereDesc (os : OrdemServicoRow) : List OrdemServicoRow → List OrdemServicoRow
  | [] => [os]
  | b :: rest => if b.created_at ≤ os.created_at then os :: b :: rest else b :: insereDesc os rest

/-- Sort the orders by `created_at` descending. -/
def ordenaDesc (l : List OrdemServicoRow) : List OrdemServicoRow :=
  l.foldr insereDesc []

theorem mem_insereDesc (x os : OrdemServicoRow) (l : List OrdemServicoRow) :
    x ∈ insereDesc os l ↔ x = os ∨ x ∈ l := by
  induction l with
  | nil => simp [insereDesc]
  | cons b rest ih =>
    by_cases h : b.created_at ≤ os.created_at
    · simp [insereDesc, h]
    · simp [insereDesc, h, ih]
      tauto

theorem mem_ordenaDesc (x : OrdemServicoRow) (l : List OrdemServicoRow) :
    x ∈ ordenaDesc l ↔ x ∈ l := by
  induction l with
  | nil => simp [ordenaDesc]
  | cons b rest ih =>
    simp only [ordenaDesc, List.foldr_cons, List.mem_cons]
    rw [mem_insereDesc]
    simp only [ordenaDesc] at ih
    rw [ih]

/-- Error oracle for the read hook: whether the main list query fails, and,
per order id, whether the secondary fallback-vehicle lookup for that order's
map iteration fails. -/
structure ReadOracle where
  mainErr : Option String
  vehErr : String → Option String

/-- The `.limit(1)` lookup of the customer's vehicles issued for an order
lacking a direct vehicle. -/
def clienteVeiculosLookup (db : DB) (c : String) : List Veiculo :=
  (db.veiculos.filter (fun v => v.cliente_id == some c)).take 1

/-- One iteration of the `Promise.all` map of the list query: when the order
has no joined vehicle and a truthy `cliente_id`, look up the customer's first
vehicle and attach it as `cliente_veiculo`; the boolean records whether the
secondary request was issued.  The destructuring of the secondary response
reads only `data`, so a failing lookup yields a null `data` and the order is
returned unchanged (the error is not checked). -/
def enrichOS (db : DB) (orcl : ReadOracle) (j : OSWithDetails) : OSWithDetails × Bool :=
  match j.veiculo, j.os.cliente_id with
  | none, some c =>
    if c != "" then
      match orcl.vehErr j.os.id with
      | some _ => (j, true)
      | none =>
        let clienteVeiculos := clienteVeiculosLookup db c
        if clienteVeiculos.length > 0 then
          ({ j with cliente_veiculo := clienteVeiculos.head? }, true)
        else (j, true)
    else (j, false)
  | _, _ => (j, false)

/-- The entry the read hook produces for one stored order. -/
def readEntry (db : DB) (orcl : ReadOracle) (os : OrdemServicoRow) : OSWithDetails × Bool :=
  enrichOS db orcl (joinOS db os)

/-- Outcome of the read hook's `queryFn`: the thrown-or-returned value, the
database afterwards (reads never write), and the ids of the orders for which
a secondary fallback-vehicle request was issued. -/
structure ReadSaida where
  result : Except String (List OSWithDetails)
  db : DB
  lookups : List String
deriving Repr

/-- `queryFn` of `useOrdensServico`: run the main joined query ordered by
`created_at` descending (throwing its error if it fails), then enrich each
order with the fallback vehicle. -/
def ordensServicoQueryFn (db : DB) (orcl : ReadOracle) : ReadSaida :=
  match orcl.mainErr with
  | some e => ⟨.error e, db, []⟩
  | none =>
    let entries := (ordenaDesc db.ordens).map (readEntry db orcl)
    ⟨.ok (entries.map Prod.fst), db, (entries.filter (fun p => p.2)).map (fun p => p.1.os.id)⟩

/-! ## The mutation hooks -/

/-- `.single()` on a response: exactly one row, otherwise an error. -/
def singleRow {α : Type} : List α → Except String α
  | [r] => .ok r
  | _ => .error "expected a single row"

/-- Outcome of a mutation's `mutationFn`: the resolved-or-thrown value, the
database afterwards (writes already applied stay applied), and the external
calls issued. -/
structure MutSaida (α : Type) where
  result : Except String α
  db : DB
  efeitos : List Efeito
deriving Repr

/-- The partial update payload `OrdemServicoUpdate & { id: string }` (the
updatable columns the claims are about). -/
structure OrdemServicoUpdate where
  id : String
  status : Option String := none
  status_servico : Option String := none
deriving DecidableEq, Repr

/-- Apply the partial payload to a stored row (`.update(updates)`). -/
def aplicaUpdate (u : OrdemServicoUpdate) (os : OrdemServicoRow) : OrdemServicoRow :=
  { os with
    status := u.status.getD os.status
    status_servico := u.status_servico.getD os.status_servico }

/-- Error oracle for the update mutation: which of its four remote requests
(initial select, row update, inventory consume, inventory return) fails. -/
structure UpdateOracle where
  selErr : Option String := none
  updErr : Option String := none
  atualizarErr : Option String := none
  devolverErr : Option String := none

/-- The `statusAntesFinalizacao` list of the source. -/
def statusAntesFinalizacao : List String := ["Andamento", "Aguardando Peças"]

/-- The `statusFinalizacao` list of the source. -/
def statusFinalizacao : List String := ["Finalizado", "Entregue"]

/-- The nested `orcamento(orcamento_pecas(quantidade, peca_id))` of the update
hook's initial select: `none` when the order has no linked estimate, otherwise
the estimate's part list. -/
def orcamentoPecasDe (db : DB) (os : OrdemServicoRow) : Option (List OrcamentoPeca) :=
  os.orcamento_id.bind fun oid =>
    ((db.orcamentos.filter (fun r => r.id == oid)).head?).map fun _ =>
      db.orcamento_pecas.filter (fun r => r.orcamento_id == oid)

/-- `mutationFn` of `useUpdateOrdemServico`: select the current order with its
estimate parts, apply the row update, then compare the previous and new
`status_servico` against the two fixed status lists and issue the inventory
consume or return call when the transition crosses between them. -/
def updateOrdemServicoFn (db : DB) (orcl : UpdateOracle) (u : OrdemServicoUpdate) :
    MutSaida OrdemServicoRow :=
  match orcl.selErr with
  | some e => ⟨.error e, db, []⟩
  | none =>
  match singleRow (db.ordens.filter (fun r => r.id == u.id)) with
  | .error e => ⟨.error e, db, []⟩
  | .ok osAtual =>
  match orcl.updErr with
  | some e => ⟨.error e, db, []⟩
  | none =>
  let novosOrdens := db.ordens.map (fun r => if r.id == u.id then aplicaUpdate u r else r)
  let db1 : DB := { db with ordens := novosOrdens }
  match singleRow (novosOrdens.filter (fun r => r.id == u.id)) with
  | .error e => ⟨.error e, db1, []⟩
  | .ok data =>
  let statusAnterior := osAtual.status_servico
  match u.status_servico with
  | none => ⟨.ok data, db1, []⟩
  | some novoStatus =>
    if novoStatus != "" then
      match orcamentoPecasDe db osAtual with
      | some pecasList =>
        if pecasList.length > 0 then
          let pecasParaProcessar :=
            pecasList.map (fun op => PecaProcessar.mk op.peca_id op.quantidade)
          if statusAntesFinalizacao.contains statusAnterior
              && statusFinalizacao.contains novoStatus then
            match orcl.atualizarErr with
            | some e => ⟨.error e, db1, [.atualizarEstoque pecasParaProcessar]⟩
            | none =>
              let db2 : DB :=
                { db1 with estoque := atualizarEstoquePecas db1.estoque pecasParaProcessar }
              if statusFinalizacao.contains statusAnterior
                  && statusAntesFinalizacao.contains novoStatus then
                match orcl.devolverErr with
                | some e =>
                    ⟨.error e, db2,
                      [.atualizarEstoque pecasParaProcessar, .devolverEstoque pecasParaProcessar]⟩
                | none =>
                    ⟨.ok data,
                      { db2 with estoque := devolverEstoquePecas db2.estoque pecasParaProcessar },
                      [.atualizarEstoque pecasParaProcessar, .devolverEstoque pecasParaProcessar]⟩
              else ⟨.ok data, db2, [.atualizarEstoque pecasParaProcessar]⟩
          else
            if statusFinalizacao.contains statusAnterior
                && statusAntesFinalizacao.contains novoStatus then
              match orcl.devolverErr with
              | some e => ⟨.error e, db1, [.devolverEstoque pecasParaProcessar]⟩
              | none =>
                  ⟨.ok data,
                    { db1 with estoque := devolverEstoquePecas db1.estoque pecasParaProcessar },
                    [.devolverEstoque pecasParaProcessar]⟩
            else ⟨.ok data, db1, []⟩
        else ⟨.ok data, db1, []⟩
      | none => ⟨.ok data, db1, []⟩
    else ⟨.ok data, db1, []⟩

/-- `mutationFn` of `useCreateOrdemServico`: insert the new order row and
return it (the backend generates nothing the claims depend on, so the row is
inserted as given). -/
def createOrdemServicoFn (db : DB) (insErr : Option String) (row : OrdemServicoRow) :
    MutSaida OrdemServicoRow :=
  match insErr with
  | some e => ⟨.error e, db, []⟩
  | none => ⟨.ok row, { db with ordens := db.ordens ++ [row] }, []⟩

/-- Error oracle for the delete mutation: which of its three remote requests
(select of `orcamento_id`, delete of the order, estimate status update)
fails. -/
structure DeleteOracle where
  selErr : Option String := none
  delErr : Option String := none
  updErr : Option String := none

/-- The `{ deletedId, orcamentoId }` value the delete mutation resolves with. -/
structure DeleteRet where
  deletedId : String
  orcamentoId : Option String
deriving DecidableEq, Repr

/-- `mutationFn` of `useDeleteOrdemServico`: fetch the order's `orcamento_id`,
delete the order row, and, when a truthy estimate id is linked, set that
estimate's status to "Pendente". -/
def deleteOrdemServicoFn (db : DB) (orcl : DeleteOracle) (id : String) : MutSaida DeleteRet :=
  match orcl.selErr with
  | some e => ⟨.error e, db, []⟩
  | none =>
  match singleRow (db.ordens.filter (fun r => r.id == id)) with
  | .error e => ⟨.error e, db, []⟩
  | .ok os =>
  match orcl.delErr with
  | some e => ⟨.error e, db, []⟩
  | none =>
  let db1 : DB := { db with ordens := db.ordens.filter (fun r => r.id != id) }
  match os.orcamento_id with
  | some oid =>
    if oid != "" then
      match orcl.updErr with
      | some e => ⟨.error e, db1, [.updateOrcamento oid "Pendente"]⟩
      | none =>
          ⟨.ok ⟨id, some oid⟩,
            { db1 with orcamentos :=
                db1.orcamentos.map fun o =>
                  if o.id == oid then { o with status := "Pendente" } else o },
            [.updateOrcamento oid "Pendente"]⟩
    else ⟨.ok ⟨id, some oid⟩, db1, []⟩
  | none => ⟨.ok ⟨id, none⟩, db1, []⟩

/-! ## The `useMutation` wrapper: notifications and cache invalidation -/

/-- What the user and the query cache observe after a mutation settles:
the invalidated query keys and the toasts shown (`true` = success toast). -/
structure UISaida where
  invalidated : List (List String)
  toasts : List (Bool × String)
deriving DecidableEq, Repr

/-- `onSuccess`/`onError` of a mutation: a resolved mutation invalidates its
query keys and shows its success toast; a rejected one shows only the error
toast. -/
def mutWrapper {α : Type} (keys : List (List String)) (okMsg errMsg : String)
    (r : Except String α) : UISaida :=
  match r with
  | .ok _ => ⟨keys, [(true, okMsg)]⟩
  | .error _ => ⟨[], [(false, errMsg)]⟩

/-- The whole `useUpdateOrdemServico` mutation: `mutationFn` plus its
`onSuccess`/`onError` callbacks. -/
def useUpdateOrdemServicoRun (db : DB) (orcl : UpdateOracle) (u : OrdemServicoUpdate) :
    MutSaida OrdemServicoRow × UISaida :=
  let m := updateOrdemServicoFn db orcl u
  (m, mutWrapper [["ordens_servico"]]
      "Ordem de serviço atualizada com sucesso!" "Erro ao atualizar ordem de serviço" m.result)

/-- The whole `useCreateOrdemServico` mutation. -/
def useCreateOrdemServicoRun (db : DB) (insErr : Option String) (row : OrdemServicoRow) :
    MutSaida OrdemServicoRow × UISaida :=
  let m := createOrdemServicoFn db insErr row
  (m, mutWrapper [["ordens_servico"]]
      "Ordem de serviço criada com sucesso!" "Erro ao criar ordem de serviço" m.result)

/-- The whole `useDeleteOrdemServico` mutation. -/
def useDeleteOrdemServicoRun (db : DB) (orcl : DeleteOracle) (id : String) :
    MutSaida DeleteRet × UISaida :=
  let m := deleteOrdemServicoFn db orcl id
  (m, mutWrapper [["ordens_servico"], ["orcamentos"]]
      "Ordem de serviço excluída com sucesso!" "Erro ao excluir ordem de serviço" m.result)

/-! ## Helper lemmas about the update mutation -/

theorem aplicaUpdate_id (u : OrdemServicoUpdate) (os : OrdemServicoRow) :
    (aplicaUpdate u os).id = os.id := rfl

theorem filter_map_pres {α : Type} (f : α → α) (p : α → Bool) (h : ∀ x, p (f x) = p x) :
    ∀ l : List α, (l.map f).filter p = (l.filter p).map f := by
  intro l
  induction l with
  | nil => rfl
  | cons a t ih =>
    by_cases hpa : p a = true
    · simp [List.filter_cons, h a, hpa, ih]
    · simp only [Bool.not_eq_true] at hpa
      simp [List.filter_cons, h a, hpa, ih]

/-- After the row update, re-selecting the updated row by id yields exactly the
updated image of the previously unique row. -/
theorem novosOrdens_filter (db : DB) (u : OrdemServicoUpdate) (os : OrdemServicoRow)
    (hrow : db.ordens.filter (fun r => r.id == u.id) = [os]) :
    (db.ordens.map (fun r => if r.id == u.id then aplicaUpdate u r else r)).filter
        (fun r => r.id == u.id) = [aplicaUpdate u os] := by
  have hpres : ∀ x : OrdemServicoRow,
      ((if x.id == u.id then aplicaUpdate u x else x).id == u.id) = (x.id == u.id) := by
    intro x
    by_cases hx : (x.id == u.id) = true
    · simp [hx, aplicaUpdate_id]
    · simp only [Bool.not_eq_true] at hx
      simp [hx]
  rw [filter_map_pres _ _ hpres, hrow]
  have hos : (os.id == u.id) = true := by
    have : os ∈ db.ordens.filter (fun r => r.id == u.id) := by
      rw [hrow]; exact List.mem_singleton.mpr rfl
    exact (List.mem_filter.mp this).2
  have hos' : os.id = u.id := by simpa using hos
  simp [List.map_cons, hos']

theorem mem_of_filter_eq_singleton {α : Type} (l : List α) (p : α → Bool) (x : α)
    (h : l.filter p = [x]) : x ∈ l ∧ p x = true := by
  have hx : x ∈ l.filter p := by rw [h]; exact List.mem_singleton.mpr rfl
  exact ⟨(List.mem_filter.mp hx).1, (List.mem_filter.mp hx).2⟩

theorem contains_antes_iff (s : String) :
    statusAntesFinalizacao.contains s = true ↔ s = "Andamento" ∨ s = "Aguardando Peças" := by
  simp [statusAntesFinalizacao, List.contains, List.elem]
  by_cases h1 : s = "Andamento"
  · simp [h1]
  · by_cases h2 : s = "Aguardando Peças"
    · simp [h1, h2]
    · have b1 : (s == "Andamento") = false := by simp [h1]
      have b2 : (s == "Aguardando Peças") = false := by simp [h2]
      simp [b1, b2, h1, h2]

theorem contains_fin_iff (s : String) :
    statusFinalizacao.contains s = true ↔ s = "Finalizado" ∨ s = "Entregue" := by
  simp [statusFinalizacao, List.contains, List.elem]
  by_cases h1 : s = "Finalizado"
  · simp [h1]
  · by_cases h2 : s = "Entregue"
    · simp [h1, h2]
    · have b1 : (s == "Finalizado") = false := by simp [h1]
      have b2 : (s == "Entregue") = false := by simp [h2]
      simp [b1, b2, h1, h2]

/-- The two status lists are disjoint. -/
theorem antes_not_fin (s : String) (h : statusAntesFinalizacao.contains s = true) :
    statusFinalizacao.contains s = false := by
  rcases (contains_antes_iff s).mp h with h' | h' <;> subst h' <;> decide

theorem fin_not_antes (s : String) (h : statusFinalizacao.contains s = true) :
    statusAntesFinalizacao.contains s = false := by
  rcases (contains_fin_iff s).mp h with h' | h' <;> subst h' <;> decide

/-- A completion status is a non-empty (truthy) string. -/
theorem fin_ne_empty (s : String) (h : statusFinalizacao.contains s = true) :
    (s != "") = true := by
  rcases (contains_fin_iff s).mp h with h' | h' <;> subst h' <;> decide

/-- A pre-completion status is a non-empty (truthy) string. -/
theorem antes_ne_empty (s : String) (h : statusAntesFinalizacao.contains s = true) :
    (s != "") = true := by
  rcases (contains_antes_iff s).mp h with h' | h' <;> subst h' <;> decide

/-! ## Claims -/

/-- C1: when an update call's payload carries a new `status_servico` in
{Finalizado, Entregue}, the order's previous `status_servico` is in
{Andamento, Aguardando Peças}, and the linked estimate's part list is
non-empty, the update (all of whose requests succeed here) invokes the
inventory-consume operation exactly once, with exactly the list of the
estimate parts' ids and quantities, and each listed part's inventory
decreases by its listed quantity exactly once. -/
theorem C1_consome_estoque_na_finalizacao (db : DB) (uo : UpdateOracle)
    (u : OrdemServicoUpdate) (os : OrdemServicoRow) (ns : String)
    (pecasList : List OrcamentoPeca)
    (hsel : uo.selErr = none)
    (hrow : db.ordens.filter (fun r => r.id == u.id) = [os])
    (hupd : uo.updErr = none)
    (hns : u.status_servico = some ns)
    (hnsFin : statusFinalizacao.contains ns = true)
    (hprev : statusAntesFinalizacao.contains os.status_servico = true)
    (hparts : orcamentoPecasDe db os = some pecasList)
    (hne : pecasList ≠ [])
    (hcons : uo.atualizarErr = none)
    (hnd : (pecasList.map (fun op => op.peca_id)).Nodup) :
    (updateOrdemServicoFn db uo u).efeitos
        = [Efeito.atualizarEstoque
            (pecasList.map (fun op => PecaProcessar.mk op.peca_id op.quantidade))]
    ∧ (updateOrdemServicoFn db uo u).result = Except.ok (aplicaUpdate u os)
    ∧ (updateOrdemServicoFn db uo u).db.estoque
        = atualizarEstoquePecas db.estoque
            (pecasList.map (fun op => PecaProcessar.mk op.peca_id op.quantidade))
    ∧ ∀ op ∈ pecasList,
        estoqueDe (updateOrdemServicoFn db uo u).db.estoque op.peca_id
          = estoqueDe db.estoque op.peca_id - op.quantidade := by
  have hns' : (ns != "") = true := fin_ne_empty ns hnsFin
  have hnotfin : statusFinalizacao.contains os.status_servico = false :=
    antes_not_fin _ hprev
  have hfil := novosOrdens_filter db u os hrow
  have hlen : pecasList.length > 0 := List.length_pos.mpr hne
  have hmain : updateOrdemServicoFn db uo u
      = ⟨Except.ok (aplicaUpdate u os),
          { db with
              ordens := db.ordens.map (fun r => if r.id == u.id then aplicaUpdate u r else r)
              estoque := atualizarEstoquePecas db.estoque
                (pecasList.map (fun op => PecaProcessar.mk op.peca_id op.quantidade)) },
          [Efeito.atualizarEstoque
            (pecasList.map (fun op => PecaProcessar.mk op.peca_id op.quantidade))]⟩ := by
    rw [updateOrdemServicoFn, hsel]
    rw [hrow]
    show (match singleRow [os] with | _ => _ : MutSaida OrdemServicoRow) = _
    rw [show singleRow [os] = Except.ok os from rfl]
    simp only [hupd, hfil, hns, singleRow, hparts, hns', hprev, hnsFin, hnotfin, hcons,
      Bool.and_true, Bool.and_false, Bool.true_and, Bool.false_and, if_true, if_false,
      hlen, if_pos]
    simp
  refine ⟨by rw [hmain], by rw [hmain], by rw [hmain], ?_⟩
  intro op hop
  rw [hmain]
  show estoqueDe (atualizarEstoquePecas db.estoque _) op.peca_id = _
  have hndm : ((pecasList.map (fun op => PecaProcessar.mk op.peca_id op.quantidade)).map
      (fun pr => pr.pecaId)).Nodup := by
    rw [List.map_map]
    exact hnd
  have hmem : PecaProcessar.mk op.peca_id op.quantidade
      ∈ pecasList.map (fun op => PecaProcessar.mk op.peca_id op.quantidade) :=
    List.mem_map_of_mem _ hop
  have := ajusteEstoque_nodup_mem (-1) _ db.estoque hndm _ hmem
  rw [atualizarEstoquePecas, this]
  ring

/-- C2: when an update call's payload carries a new `status_servico` in
{Andamento, Aguardando Peças}, the order's previous `status_servico` is in
{Finalizado, Entregue}, and the linked estimate's part list is non-empty, the
update (all of whose requests succeed here) invokes the inventory-return
operation exactly once, with exactly the list of the estimate parts' ids and
quantities, and each listed part's inventory increases by its listed quantity
exactly once. -/
theorem C2_devolve_estoque_na_reabertura (db : DB) (uo : UpdateOracle)
    (u : OrdemServicoUpdate) (os : OrdemServicoRow) (ns : String)
    (pecasList : List OrcamentoPeca)
    (hsel : uo.selErr = none)
    (hrow : db.ordens.filter (fun r => r.id == u.id) = [os])
    (hupd : uo.updErr = none)
    (hns : u.status_servico = some ns)
    (hnsAntes : statusAntesFinalizacao.contains ns = true)
    (hprev : statusFinalizacao.contains os.status_servico = true)
    (hparts : orcamentoPecasDe db os = some pecasList)
    (hne : pecasList ≠ [])
    (hdev : uo.devolverErr = none)
    (hnd : (pecasList.map (fun op => op.peca_id)).Nodup) :
    (updateOrdemServicoFn db uo u).efeitos
        = [Efeito.devolverEstoque
            (pecasList.map (fun op => PecaProcessar.mk op.peca_id op.quantidade))]
    ∧ (updateOrdemServicoFn db uo u).result = Except.ok (aplicaUpdate u os)
    ∧ (updateOrdemServicoFn db uo u).db.estoque
        = devolverEstoquePecas db.estoque
            (pecasList.map (fun op => PecaProcessar.mk op.peca_id op.quantidade))
    ∧ ∀ op ∈ pecasList,
        estoqueDe (updateOrdemServicoFn db uo u).db.estoque op.peca_id
          = estoqueDe db.estoque op.peca_id + op.quantidade := by
  have hns' : (ns != "") = true := antes_ne_empty ns hnsAntes
  have hnotantes : statusAntesFinalizacao.contains os.status_servico = false :=
    fin_not_antes _ hprev
  have hfil := novosOrdens_filter db u os hrow
  have hlen : pecasList.length > 0 := List.length_pos.mpr hne
  have hmain : updateOrdemServicoFn db uo u
      = ⟨Except.ok (aplicaUpdate u os),
          { db with
              ordens := db.ordens.map (fun r => if r.id == u.id then aplicaUpdate u r else r)
              estoque := devolverEstoquePecas db.estoque
                (pecasList.map (fun op => PecaProcessar.mk op.peca_id op.quantidade)) },
          [Efeito.devolverEstoque
            (pecasList.map (fun op => PecaProcessar.mk op.peca_id op.quantidade))]⟩ := by
    rw [updateOrdemServicoFn, hsel]
    rw [hrow]
    rw [show singleRow [os] = Except.ok os from rfl]
    simp only [hupd, hfil, hns, singleRow, hparts, hns', hprev, hnsAntes, hnotantes, hdev,
      Bool.and_true, Bool.and_false, Bool.true_and, Bool.false_and, if_true, if_false,
      hlen, if_pos]
    simp
  refine ⟨by rw [hmain], by rw [hmain], by rw [hmain], ?_⟩
  intro op hop
  rw [hmain]
  show estoqueDe (devolverEstoquePecas db.estoque _) op.peca_id = _
  have hndm : ((pecasList.map (fun op => PecaProcessar.mk op.peca_id op.quantidade)).map
      (fun pr => pr.pecaId)).Nodup := by
    rw [List.map_map]
    exact hnd
  have hmem : PecaProcessar.mk op.peca_id op.quantidade
      ∈ pecasList.map (fun op => PecaProcessar.mk op.peca_id op.quantidade) :=
    List.mem_map_of_mem _ hop
  have := ajusteEstoque_nodup_mem 1 _ db.estoque hndm _ hmem
  rw [devolverEstoquePecas, this]
  ring

/-! ## Sample database used by the witnesses -/

/-- A service order in progress, linked to estimate `orc1`. -/
def osW : OrdemServicoRow :=
  ⟨"A", some "c1", none, some "orc1", "Aberto", "Andamento", 5⟩

/-- The same order already finished. -/
def osF : OrdemServicoRow :=
  ⟨"A", some "c1", none, some "orc1", "Aberto", "Finalizado", 5⟩

/-- Sample database: one order, one customer with one vehicle, one estimate
with a single part P1 of quantity 2, ten P1 in stock. -/
def dbW : DB :=
  ⟨[osW], [⟨"c1", "Ana"⟩], [⟨"v1", some "c1", "AAA"⟩], [⟨"orc1", "Aprovado"⟩],
    [⟨"orc1", "P1", 2⟩], [], [("P1", 10)]⟩

/-- Like `dbW` but the order is already finished. -/
def dbF : DB :=
  ⟨[osF], [⟨"c1", "Ana"⟩], [⟨"v1", some "c1", "AAA"⟩], [⟨"orc1", "Aprovado"⟩],
    [⟨"orc1", "P1", 2⟩], [], [("P1", 10)]⟩

/-- Witness for C1: updating the sample in-progress order to "Finalizado"
consumes part P1's quantity 2 from inventory exactly once. -/
theorem C1_witness :
    (updateOrdemServicoFn dbW {} ⟨"A", none, some "Finalizado"⟩).efeitos
        = [Efeito.atualizarEstoque [⟨"P1", 2⟩]]
    ∧ estoqueDe (updateOrdemServicoFn dbW {} ⟨"A", none, some "Finalizado"⟩).db.estoque "P1"
        = estoqueDe dbW.estoque "P1" - 2 := by
  have h := C1_consome_estoque_na_finalizacao dbW {} ⟨"A", none, some "Finalizado"⟩ osW
    "Finalizado" [⟨"orc1", "P1", 2⟩] rfl (by decide) rfl rfl (by decide) (by decide)
    (by decide) (by decide) rfl (by decide)
  exact ⟨h.1, h.2.2.2 ⟨"orc1", "P1", 2⟩ (by decide)⟩

/-- Witness for C2: updating the sample finished order back to "Andamento"
returns part P1's quantity 2 to inventory exactly once. -/
theorem C2_witness :
    (updateOrdemServicoFn dbF {} ⟨"A", none, some "Andamento"⟩).efeitos
        = [Efeito.devolverEstoque [⟨"P1", 2⟩]]
    ∧ estoqueDe (updateOrdemServicoFn dbF {} ⟨"A", none, some "Andamento"⟩).db.estoque "P1"
        = estoqueDe dbF.estoque "P1" + 2 := by
  have h := C2_devolve_estoque_na_reabertura dbF {} ⟨"A", none, some "Andamento"⟩ osF
    "Andamento" [⟨"orc1", "P1", 2⟩] rfl (by decide) rfl rfl (by decide) (by decide)
    (by decide) (by decide) rfl (by decide)
  exact ⟨h.1, h.2.2.2 ⟨"orc1", "P1", 2⟩ (by decide)⟩

/-- Membership of the payload's optional new status in a status list
(`undefined` is in neither list, matching the `novoStatus &&` guard). -/
def novoStatusIn (l : List String) : Option String → Bool
  | some s => l.contains s
  | none => false

theorem singleRow_eq_ok {α : Type} (l : List α) (x : α) (h : singleRow l = .ok x) :
    l = [x] := by
  cases l with
  | nil => simp [singleRow] at h
  | cons a t =>
    cases t with
    | nil =>
      simp only [singleRow, Except.ok.injEq] at h
      rw [h]
    | cons b t2 => simp [singleRow] at h

/-- C3: an update call whose status transition neither crosses from
pre-completion to completion nor from completion to pre-completion — including
payloads carrying no `status_servico`, transitions inside one set, and
statuses outside both sets — issues neither the inventory-consume nor the
inventory-return call and leaves the inventory unchanged, whatever the
outcome of each remote request. -/
theorem C3_sem_ajuste_de_estoque (db : DB) (uo : UpdateOracle) (u : OrdemServicoUpdate)
    (hnc : ∀ os ∈ db.ordens, os.id = u.id →
      (statusAntesFinalizacao.contains os.status_servico
          && novoStatusIn statusFinalizacao u.status_servico) = false
      ∧ (statusFinalizacao.contains os.status_servico
          && novoStatusIn statusAntesFinalizacao u.status_servico) = false) :
    (updateOrdemServicoFn db uo u).efeitos = []
    ∧ (updateOrdemServicoFn db uo u).db.estoque = db.estoque := by
  rcases hsel : uo.selErr with _ | e
  · rcases hfl : db.ordens.filter (fun r => r.id == u.id) with _ | ⟨osAtual, rest⟩
    · simp [updateOrdemServicoFn, hsel, hfl, singleRow]
    · rcases rest with _ | ⟨os2, rest2⟩
      · have hosmem := mem_of_filter_eq_singleton _ _ _ hfl
        have hosid : osAtual.id = u.id := by simpa using hosmem.2
        obtain ⟨hnc1, hnc2⟩ := hnc osAtual hosmem.1 hosid
        rcases hupd : uo.updErr with _ | e
        · rcases hns : u.status_servico with _ | ns
          · simp [updateOrdemServicoFn, hsel, hfl, hupd, singleRow, hns] <;>
              refine ⟨?_, ?_⟩ <;> split <;> rfl
          · rw [hns] at hnc1 hnc2
            simp only [novoStatusIn] at hnc1 hnc2
            by_cases hempty : (ns != "") = true
            · rcases hop : orcamentoPecasDe db osAtual with _ | pecasList
              · simp [updateOrdemServicoFn, hsel, hfl, hupd, singleRow, hns, hempty, hop] <;>
                  refine ⟨?_, ?_⟩ <;> split <;> rfl
              · by_cases hlen : pecasList.length > 0
                · have hp1 : ¬(osAtual.status_servico ∈ statusAntesFinalizacao
                      ∧ ns ∈ statusFinalizacao) := by
                    have h' := hnc1
                    simp at h'
                    tauto
                  have hp2 : ¬(osAtual.status_servico ∈ statusFinalizacao
                      ∧ ns ∈ statusAntesFinalizacao) := by
                    have h' := hnc2
                    simp at h'
                    tauto
                  simp [updateOrdemServicoFn, hsel, hfl, hupd, singleRow, hns, hempty,
                    hop, hlen, hp1, hp2] <;> refine ⟨?_, ?_⟩ <;> split <;> rfl
                · simp [updateOrdemServicoFn, hsel, hfl, hupd, singleRow, hns, hempty,
                    hop, hlen] <;> refine ⟨?_, ?_⟩ <;> split <;> rfl
            · simp only [Bool.not_eq_true] at hempty
              simp [updateOrdemServicoFn, hsel, hfl, hupd, singleRow, hns, hempty] <;>
                refine ⟨?_, ?_⟩ <;> split <;> rfl
        · simp [updateOrdemServicoFn, hsel, hfl, hupd, singleRow]
      · simp [updateOrdemServicoFn, hsel, hfl, singleRow]
  · simp [updateOrdemServicoFn, hsel]

/-- Witness for C3: updating the sample order's `status_servico` to "Aberto"
(outside both status sets) issues no inventory call and leaves the inventory
as it was. -/
theorem C3_witness :
    (updateOrdemServicoFn dbW {} ⟨"A", none, some "Aberto"⟩).efeitos = []
    ∧ (updateOrdemServicoFn dbW {} ⟨"A", none, some "Aberto"⟩).db.estoque = dbW.estoque :=
  C3_sem_ajuste_de_estoque dbW {} ⟨"A", none, some "Aberto"⟩ (by decide)

/-! ## Read-hook lemmas and claims -/

theorem take1_head {α : Type} (l : List α) : (l.take 1).head? = l.head? := by
  cases l <;> rfl

/-- For an order with no joined vehicle, a truthy customer id and a successful
secondary lookup, the produced entry carries the head of the customer's
vehicle list as `cliente_veiculo` (hence `none` exactly when the customer has
no vehicles) and the order row itself is passed through unchanged. -/
theorem readEntry_com_cliente (db : DB) (orcl : ReadOracle) (os : OrdemServicoRow) (c : String)
    (hveic : (joinOS db os).veiculo = none)
    (hcli : os.cliente_id = some c)
    (hne : c ≠ "")
    (hlook : orcl.vehErr os.id = none) :
    (readEntry db orcl os).1.cliente_veiculo
        = (db.veiculos.filter (fun v => v.cliente_id == some c)).head?
    ∧ (readEntry db orcl os).1.os = os := by
  have hne' : (c != "") = true := by simpa using hne
  have hosid : (joinOS db os).os.id = os.id := rfl
  unfold readEntry enrichOS
  rw [hveic]
  have hoscli : (joinOS db os).os.cliente_id = some c := hcli
  rw [hoscli, hosid]
  rcases hfe : db.veiculos.filter (fun v => v.cliente_id == some c) with _ | ⟨v, rest⟩
  · simp [hne', hlook, clienteVeiculosLookup, hfe, joinOS]
  · simp [hne', hlook, clienteVeiculosLookup, hfe, joinOS]

/-- C4: for every order returned by the read operation that has no directly
joined vehicle (uuid customer ids being non-empty), the entry carries the
customer's first vehicle as `cliente_veiculo` when the customer has one, and
no fallback when the customer has none; the fallback lives on the returned
entry only — the order row is passed through unchanged and the database is
not written. -/
theorem C4_fallback_primeiro_veiculo (db : DB) (orcl : ReadOracle) (os : OrdemServicoRow)
    (c : String)
    (hmem : os ∈ db.ordens)
    (hmain : orcl.mainErr = none)
    (hveic : (joinOS db os).veiculo = none)
    (hcli : os.cliente_id = some c)
    (hne : c ≠ "")
    (hlook : orcl.vehErr os.id = none) :
    (ordensServicoQueryFn db orcl).result
        = Except.ok ((ordenaDesc db.ordens).map (fun r => (readEntry db orcl r).1))
    ∧ (readEntry db orcl os).1 ∈ (ordenaDesc db.ordens).map (fun r => (readEntry db orcl r).1)
    ∧ (db.veiculos.filter (fun v => v.cliente_id == some c) ≠ [] →
        (readEntry db orcl os).1.cliente_veiculo
          = (db.veiculos.filter (fun v => v.cliente_id == some c)).head?)
    ∧ (db.veiculos.filter (fun v => v.cliente_id == some c) = [] →
        (readEntry db orcl os).1.cliente_veiculo = none)
    ∧ (readEntry db orcl os).1.os = os
    ∧ (ordensServicoQueryFn db orcl).db = db := by
  obtain ⟨hcv, hos⟩ := readEntry_com_cliente db orcl os c hveic hcli hne hlook
  refine ⟨?_, ?_, fun _ => hcv, fun hfe => by rw [hcv, hfe]; rfl, hos, ?_⟩
  · simp [ordensServicoQueryFn, hmain]
  · exact List.mem_map_of_mem _ ((mem_ordenaDesc os _).mpr hmem)
  · simp [ordensServicoQueryFn, hmain]

/-- Witness for C4: in the sample database the order has no joined vehicle and
its customer owns vehicle v1, which is attached as the fallback. -/
theorem C4_witness :
    (readEntry dbW ⟨none, fun _ => none⟩ osW).1.cliente_veiculo
        = some ⟨"v1", some "c1", "AAA"⟩
    ∧ (ordensServicoQueryFn dbW ⟨none, fun _ => none⟩).db = dbW := by
  have h := C4_fallback_primeiro_veiculo dbW ⟨none, fun _ => none⟩ osW "c1"
    (by decide) rfl (by decide) rfl (by decide) rfl
  exact ⟨by rw [h.2.2.1 (by decide)]; decide, h.2.2.2.2.2⟩

/-- C10: the secondary fallback-vehicle lookup is issued only for orders with
a non-null `cliente_id`; an order lacking both a joined vehicle and a customer
reference is returned with no lookup issued and no `cliente_veiculo`. -/
theorem C10_lookup_somente_com_cliente (db : DB) (orcl : ReadOracle) (os : OrdemServicoRow)
    (hmem : os ∈ db.ordens) :
    ((readEntry db orcl os).2 = true → os.cliente_id ≠ none)
    ∧ (orcl.mainErr = none →
        (readEntry db orcl os).1 ∈ (ordenaDesc db.ordens).map (fun r => (readEntry db orcl r).1)
        ∧ (ordensServicoQueryFn db orcl).result
            = Except.ok ((ordenaDesc db.ordens).map (fun r => (readEntry db orcl r).1)))
    ∧ ((joinOS db os).veiculo = none → os.cliente_id = none →
        (readEntry db orcl os).1.cliente_veiculo = none ∧ (readEntry db orcl os).2 = false) := by
  refine ⟨?_, fun hmain => ⟨List.mem_map_of_mem _ ((mem_ordenaDesc os _).mpr hmem),
    by simp [ordensServicoQueryFn, hmain]⟩, ?_⟩
  · intro hiss
    rcases hcid : os.cliente_id with _ | c
    · exfalso
      rcases hv : (joinOS db os).veiculo with _ | v
      · unfold readEntry enrichOS at hiss
        rw [hv, show (joinOS db os).os.cliente_id = none from hcid] at hiss
        simp at hiss
      · unfold readEntry enrichOS at hiss
        rw [hv] at hiss
        simp at hiss
    · simp [hcid]
  · intro hv hcid
    unfold readEntry enrichOS
    rw [hv, show (joinOS db os).os.cliente_id = none from hcid]
    exact ⟨rfl, rfl⟩

/-- Like `dbW`, but the order has neither a vehicle nor a customer. -/
def osN : OrdemServicoRow := ⟨"B", none, none, none, "Aberto", "Andamento", 3⟩

def dbN : DB := ⟨[osN], [], [⟨"v1", some "c1", "AAA"⟩], [], [], [], []⟩

/-- Witness for C10: for the customerless order no lookup is issued and no
fallback vehicle is attached. -/
theorem C10_witness :
    (readEntry dbN ⟨none, fun _ => none⟩ osN).1.cliente_veiculo = none
    ∧ (readEntry dbN ⟨none, fun _ => none⟩ osN).2 = false := by
  have h := C10_lookup_somente_com_cliente dbN ⟨none, fun _ => none⟩ osN (by decide)
  exact h.2.2 rfl rfl

/-- The read oracle in which every secondary fallback-vehicle lookup fails. -/
def orclVehFalha : ReadOracle := ⟨none, fun _ => some "network error"⟩

/-- Counterexample to C5 as stated: in the sample database the order lacks a
vehicle, so a secondary fallback-vehicle lookup is issued (`lookups = ["A"]`)
and that data-service request returns an error, yet the read operation does
not throw — it returns an `ok` result (with the order passed through without
a fallback field), because the secondary response's error is never checked. -/
theorem C5_counterexample :
    orclVehFalha.vehErr "A" = some "network error"
    ∧ (ordensServicoQueryFn dbW orclVehFalha).lookups = ["A"]
    ∧ (ordensServicoQueryFn dbW orclVehFalha).result = Except.ok [joinOS dbW osW] :=
  ⟨rfl, by decide, by rfl⟩

/-- C5 as amended: the read operation propagates the main list query's error
to the caller; an error of a secondary fallback-vehicle lookup is swallowed —
the operation still returns a result and the affected order is passed through
unchanged, with no `cliente_veiculo` attached. -/
theorem C5_amended_propagacao (db : DB) (orcl : ReadOracle) :
    (∀ e, orcl.mainErr = some e → (ordensServicoQueryFn db orcl).result = .error e)
    ∧ (orcl.mainErr = none →
        (ordensServicoQueryFn db orcl).result
          = Except.ok ((ordenaDesc db.ordens).map (fun r => (readEntry db orcl r).1)))
    ∧ (∀ os e, orcl.vehErr os.id = some e →
        (readEntry db orcl os).1 = joinOS db os
        ∧ (readEntry db orcl os).1.cliente_veiculo = none) := by
  refine ⟨fun e he => by simp [ordensServicoQueryFn, he],
    fun hmain => by simp [ordensServicoQueryFn, hmain], ?_⟩
  intro os e hve
  have hid : (joinOS db os).os.id = os.id := rfl
  have hunch : (readEntry db orcl os).1 = joinOS db os := by
    unfold readEntry enrichOS
    rcases hv : (joinOS db os).veiculo with _ | v
    · rcases hcid : (joinOS db os).os.cliente_id with _ | c
      · rfl
      · by_cases hne : (c != "") = true
        · rw [hid, hve]
          simp [hne]
        · simp only [Bool.not_eq_true] at hne
          simp [hne]
    · rfl
  exact ⟨hunch, by rw [hunch]; rfl⟩

/-- Witness for the amended C5: a failing main query's error is thrown, and
with every secondary lookup failing the sample read still resolves. -/
theorem C5_amended_witness :
    (ordensServicoQueryFn dbW ⟨some "boom", fun _ => none⟩).result = Except.error "boom"
    ∧ (ordensServicoQueryFn dbW orclVehFalha).result
        = Except.ok ((ordenaDesc dbW.ordens).map (fun r => (readEntry dbW orclVehFalha r).1)) := by
  refine ⟨(C5_amended_propagacao dbW ⟨some "boom", fun _ => none⟩).1 "boom" rfl,
    (C5_amended_propagacao dbW orclVehFalha).2.1 rfl⟩

/-! ## Delete-hook claims -/

/-- C6: deleting an order linked to an estimate (uuid estimate ids being
non-empty) issues exactly one estimate update setting that estimate's status
to "Pendente" after the order row is deleted; deleting an order with no
linked estimate issues no estimate update. -/
theorem C6_delete_reseta_orcamento (db : DB) (orcl : DeleteOracle) (osId : String)
    (os : OrdemServicoRow) (oid : String)
    (hsel : orcl.selErr = none)
    (hrow : db.ordens.filter (fun r => r.id == osId) = [os])
    (hdel : orcl.delErr = none) :
    (os.orcamento_id = some oid → oid ≠ "" → orcl.updErr = none →
        (deleteOrdemServicoFn db orcl osId).efeitos = [Efeito.updateOrcamento oid "Pendente"]
        ∧ (deleteOrdemServicoFn db orcl osId).db.orcamentos
            = db.orcamentos.map
                (fun o => if o.id == oid then { o with status := "Pendente" } else o)
        ∧ (deleteOrdemServicoFn db orcl osId).db.ordens
            = db.ordens.filter (fun r => r.id != osId)
        ∧ (deleteOrdemServicoFn db orcl osId).result = Except.ok ⟨osId, some oid⟩)
    ∧ (os.orcamento_id = none →
        (deleteOrdemServicoFn db orcl osId).efeitos = []
        ∧ (deleteOrdemServicoFn db orcl osId).db.orcamentos = db.orcamentos
        ∧ (deleteOrdemServicoFn db orcl osId).result = Except.ok ⟨osId, none⟩) := by
  constructor
  · intro hoid hne hupd
    have hne' : (oid != "") = true := by simpa using hne
    rw [deleteOrdemServicoFn, hsel, hrow]
    rw [show singleRow [os] = Except.ok os from rfl]
    simp [hdel, hoid, hne', hupd]
  · intro hoid
    rw [deleteOrdemServicoFn, hsel, hrow]
    rw [show singleRow [os] = Except.ok os from rfl]
    simp [hdel, hoid]

/-- Witness for C6: deleting the sample order resets estimate orc1 to
"Pendente" and removes the order. -/
theorem C6_witness :
    (deleteOrdemServicoFn dbW {} "A").efeitos = [Efeito.updateOrcamento "orc1" "Pendente"]
    ∧ (deleteOrdemServicoFn dbW {} "A").db.orcamentos = [⟨"orc1", "Pendente"⟩]
    ∧ (deleteOrdemServicoFn dbW {} "A").db.ordens = [] := by
  have h := (C6_delete_reseta_orcamento dbW {} "A" osW "orc1" rfl (by decide) rfl).1
    rfl (by decide) rfl
  refine ⟨h.1, ?_, ?_⟩
  · rw [h.2.1]; decide
  · rw [h.2.2.1]; decide

/-- C7: in the delete operation the first failing step aborts the rest — a
failing initial lookup leaves the database untouched and issues nothing, a
failing order delete leaves the database untouched and issues no estimate
update, and a failing estimate update after a successful delete does not undo
the delete (and applies no estimate change). -/
theorem C7_delete_aborta_em_falha (db : DB) (orcl : DeleteOracle) (osId : String) :
    (∀ e, orcl.selErr = some e →
        deleteOrdemServicoFn db orcl osId = ⟨.error e, db, []⟩)
    ∧ (∀ os e, orcl.selErr = none →
        db.ordens.filter (fun r => r.id == osId) = [os] → orcl.delErr = some e →
        deleteOrdemServicoFn db orcl osId = ⟨.error e, db, []⟩)
    ∧ (∀ os oid e, orcl.selErr = none →
        db.ordens.filter (fun r => r.id == osId) = [os] → orcl.delErr = none →
        os.orcamento_id = some oid → oid ≠ "" → orcl.updErr = some e →
        (deleteOrdemServicoFn db orcl osId).result = .error e
        ∧ (deleteOrdemServicoFn db orcl osId).db.ordens
            = db.ordens.filter (fun r => r.id != osId)
        ∧ (deleteOrdemServicoFn db orcl osId).db.orcamentos = db.orcamentos
        ∧ (deleteOrdemServicoFn db orcl osId).efeitos
            = [Efeito.updateOrcamento oid "Pendente"]) := by
  refine ⟨fun e he => by rw [deleteOrdemServicoFn, he], ?_, ?_⟩
  · intro os e hsel hrow hdel
    rw [deleteOrdemServicoFn, hsel, hrow]
    rw [show singleRow [os] = Except.ok os from rfl]
    rw [hdel]
  · intro os oid e hsel hrow hdel hoid hne hupd
    have hne' : (oid != "") = true := by simpa using hne
    rw [deleteOrdemServicoFn, hsel, hrow]
    rw [show singleRow [os] = Except.ok os from rfl]
    simp [hdel, hoid, hne', hupd]

/-- Witness for C7: a failing initial lookup leaves the sample database
untouched and resolves with that error. -/
theorem C7_witness :
    deleteOrdemServicoFn dbW ⟨some "lookup down", none, none⟩ "A"
      = ⟨.error "lookup down", dbW, []⟩ :=
  (C7_delete_aborta_em_falha dbW ⟨some "lookup down", none, none⟩ "A").1 "lookup down" rfl

/-! ## Wrapper and atomicity claims -/

/-- C8: for each of the create, update and delete mutations, a thrown error
suppresses the success toast and every cache invalidation and shows the error
toast, while the success toast and the invalidation of "ordens_servico" (plus
"orcamentos" for delete) happen exactly when the whole mutation resolves. -/
theorem C8_notificacao_e_invalidacao (db : DB) (uo : UpdateOracle) (u : OrdemServicoUpdate)
    (insErr : Option String) (row : OrdemServicoRow) (dorcl : DeleteOracle) (osId : String) :
    (∀ e, (updateOrdemServicoFn db uo u).result = .error e →
        (useUpdateOrdemServicoRun db uo u).2
          = ⟨[], [(false, "Erro ao atualizar ordem de serviço")]⟩)
    ∧ (∀ a, (updateOrdemServicoFn db uo u).result = .ok a →
        (useUpdateOrdemServicoRun db uo u).2
          = ⟨[["ordens_servico"]], [(true, "Ordem de serviço atualizada com sucesso!")]⟩)
    ∧ (∀ e, (createOrdemServicoFn db insErr row).result = .error e →
        (useCreateOrdemServicoRun db insErr row).2
          = ⟨[], [(false, "Erro ao criar ordem de serviço")]⟩)
    ∧ (∀ a, (createOrdemServicoFn db insErr row).result = .ok a →
        (useCreateOrdemServicoRun db insErr row).2
          = ⟨[["ordens_servico"]], [(true, "Ordem de serviço criada com sucesso!")]⟩)
    ∧ (∀ e, (deleteOrdemServicoFn db dorcl osId).result = .error e →
        (useDeleteOrdemServicoRun db dorcl osId).2
          = ⟨[], [(false, "Erro ao excluir ordem de serviço")]⟩)
    ∧ (∀ a, (deleteOrdemServicoFn db dorcl osId).result = .ok a →
        (useDeleteOrdemServicoRun db dorcl osId).2
          = ⟨[["ordens_servico"], ["orcamentos"]],
              [(true, "Ordem de serviço excluída com sucesso!")]⟩) := by
  refine ⟨fun e he => ?_, fun a ha => ?_, fun e he => ?_, fun a ha => ?_,
    fun e he => ?_, fun a ha => ?_⟩
  · simp [useUpdateOrdemServicoRun, mutWrapper, he]
  · simp [useUpdateOrdemServicoRun, mutWrapper, ha]
  · simp [useCreateOrdemServicoRun, mutWrapper, he]
  · simp [useCreateOrdemServicoRun, mutWrapper, ha]
  · simp [useDeleteOrdemServicoRun, mutWrapper, he]
  · simp [useDeleteOrdemServicoRun, mutWrapper, ha]

/-- Witness for C8: a failing create shows only the error toast and
invalidates nothing; a successful create invalidates the order list and shows
the success toast. -/
theorem C8_witness :
    (useCreateOrdemServicoRun dbW (some "insert failed") osW).2
        = ⟨[], [(false, "Erro ao criar ordem de serviço")]⟩
    ∧ (useCreateOrdemServicoRun dbW none osW).2
        = ⟨[["ordens_servico"]], [(true, "Ordem de serviço criada com sucesso!")]⟩ := by
  have h := C8_notificacao_e_invalidacao dbW {} ⟨"A", none, none⟩ (some "insert failed") osW {} "A"
  have h2 := C8_notificacao_e_invalidacao dbW {} ⟨"A", none, none⟩ none osW {} "A"
  exact ⟨h.2.2.1 "insert failed" rfl, h2.2.2.2.1 osW rfl⟩

/-- C9: the update mutation is not atomic and compensates nothing: the row
update precedes any inventory call (a failing row update issues no inventory
call and changes nothing), and when the inventory-consume call fails after
the row update succeeded, the mutation reports the error while the updated
row stays in place, the inventory is unchanged, and nothing is rolled back. -/
theorem C9_sem_rollback (db : DB) (uo : UpdateOracle) (u : OrdemServicoUpdate)
    (os : OrdemServicoRow) (ns : String) (pecasList : List OrcamentoPeca) :
    (∀ e, uo.selErr = none → db.ordens.filter (fun r => r.id == u.id) = [os] →
        uo.updErr = some e →
        updateOrdemServicoFn db uo u = ⟨.error e, db, []⟩)
    ∧ (∀ e, uo.selErr = none → db.ordens.filter (fun r => r.id == u.id) = [os] →
        uo.updErr = none → u.status_servico = some ns →
        statusFinalizacao.contains ns = true →
        statusAntesFinalizacao.contains os.status_servico = true →
        orcamentoPecasDe db os = some pecasList → pecasList ≠ [] →
        uo.atualizarErr = some e →
        (updateOrdemServicoFn db uo u).result = .error e
        ∧ (updateOrdemServicoFn db uo u).db.ordens
            = db.ordens.map (fun r => if r.id == u.id then aplicaUpdate u r else r)
        ∧ (updateOrdemServicoFn db uo u).db.estoque = db.estoque
        ∧ (updateOrdemServicoFn db uo u).efeitos
            = [Efeito.atualizarEstoque
                (pecasList.map (fun op => PecaProcessar.mk op.peca_id op.quantidade))]
        ∧ (useUpdateOrdemServicoRun db uo u).2.toasts
            = [(false, "Erro ao atualizar ordem de serviço")]) := by
  constructor
  · intro e hsel hrow hupd
    rw [updateOrdemServicoFn, hsel, hrow]
    rw [show singleRow [os] = Except.ok os from rfl]
    rw [hupd]
  · intro e hsel hrow hupd hns hnsFin hprev hparts hne hcons
    have hns' : (ns != "") = true := fin_ne_empty ns hnsFin
    have hfil := novosOrdens_filter db u os hrow
    have hlen : pecasList.length > 0 := List.length_pos.mpr hne
    have hmain : updateOrdemServicoFn db uo u
        = ⟨.error e,
            { db with
                ordens := db.ordens.map (fun r => if r.id == u.id then aplicaUpdate u r else r) },
            [Efeito.atualizarEstoque
              (pecasList.map (fun op => PecaProcessar.mk op.peca_id op.quantidade))]⟩ := by
      rw [updateOrdemServicoFn, hsel, hrow]
      rw [show singleRow [os] = Except.ok os from rfl]
      simp only [hupd, hfil, hns, singleRow, hparts, hns', hprev, hnsFin, hcons,
        Bool.and_true, Bool.true_and, if_true, hlen, if_pos]
    refine ⟨by rw [hmain], by rw [hmain], by rw [hmain], by rw [hmain], ?_⟩
    simp [useUpdateOrdemServicoRun, mutWrapper, hmain]

/-- Witness for C9: on the sample database, the finishing update with a
failing inventory-consume call reports the error while the row update stays
applied and the inventory is untouched. -/
theorem C9_witness :
    (updateOrdemServicoFn dbW ⟨none, none, some "stock down", none⟩
        ⟨"A", none, some "Finalizado"⟩).result = .error "stock down"
    ∧ (updateOrdemServicoFn dbW ⟨none, none, some "stock down", none⟩
        ⟨"A", none, some "Finalizado"⟩).db.ordens = [osF]
    ∧ (updateOrdemServicoFn dbW ⟨none, none, some "stock down", none⟩
        ⟨"A", none, some "Finalizado"⟩).db.estoque = dbW.estoque := by
  have h := (C9_sem_rollback dbW ⟨none, none, some "stock down", none⟩
      ⟨"A", none, some "Finalizado"⟩ osW "Finalizado" [⟨"orc1", "P1", 2⟩]).2 "stock down"
    rfl (by decide) rfl rfl (by decide) (by decide) rfl (by decide) rfl
  refine ⟨h.1, ?_, h.2.2.1⟩
  rw [h.2.1]
  decide
